import Mathlib

/-!
Verification of the docs-rag streaming ingestion pipeline
(`docs_rag/streaming.py`, `docs_rag/checkpoint.py`, `docs_rag/recovery.py`,
`docs_rag/database.py`) against its natural-language specification.

The Python code is shallowly embedded: pure helpers become Lean functions,
stateful objects become explicit state records threaded through functions,
Python exceptions become an `Except` result, and Python `int` becomes `Int`
(`len` counts become `Nat`).
-/

namespace DocsRag

/-! ### String helpers mirroring the Python string operations used -/

/-- Python `s.split(sep)` for a single-character separator, on the character
list of the string.  `''.split(c) = ['']`, `'_'.split('_') = ['', '']`. -/
def splitOnChar (sep : Char) : List Char → List (List Char)
  | [] => [[]]
  | c :: cs =>
    let r := splitOnChar sep cs
    if c = sep then [] :: r else (c :: r.headD []) :: r.tail

/-- Python `str.isdigit()` restricted to ASCII digits: true iff the string is
non-empty and all characters are digits. -/
def isDigits (l : List Char) : Bool :=
  !l.isEmpty && l.all Char.isDigit

/-- Python `int(s)` on a string of ASCII digits. -/
def digitsToNat (l : List Char) : Nat :=
  l.foldl (fun n c => n * 10 + (c.toNat - 48)) 0

/-- Python `f"{n:03d}"`: decimal digits of `n`, left-padded with zeros to
width 3. -/
def padTo3 (n : Nat) : String :=
  let s := toString n
  if s.length < 3 then String.mk (List.replicate (3 - s.length) '0') ++ s else s

/-- Python `s.split(pat)[0]`: the part of `s` before the first occurrence of
the (non-empty) pattern `pat`, or all of `s` when `pat` does not occur. -/
def takeBeforePat (pat : List Char) : List Char → List Char
  | [] => []
  | c :: cs => if pat.isPrefixOf (c :: cs) then [] else c :: takeBeforePat pat cs

/-- Rejoin the pieces produced by `splitOnChar` with the separator. -/
def joinWith (sep : Char) : List (List Char) → List Char
  | [] => []
  | [x] => x
  | x :: y :: t => x ++ sep :: joinWith sep (y :: t)

theorem splitOnChar_ne_nil (sep : Char) (l : List Char) : splitOnChar sep l ≠ [] := by
  cases l with
  | nil => simp [splitOnChar]
  | cons c cs =>
    simp only [splitOnChar]
    by_cases hc : c = sep <;> simp [hc]

theorem joinWith_splitOnChar (sep : Char) (l : List Char) :
    joinWith sep (splitOnChar sep l) = l := by
  induction l with
  | nil => rfl
  | cons c cs ih =>
    simp only [splitOnChar]
    cases h : splitOnChar sep cs with
    | nil => exact absurd h (splitOnChar_ne_nil sep cs)
    | cons x t =>
      rw [h] at ih
      by_cases hc : c = sep
      · subst hc
        simp only [if_pos rfl, joinWith]
        rw [ih]
        simp
      · simp only [if_neg hc, List.headD_cons, List.tail_cons]
        cases t with
        | nil => simpa [joinWith] using ih
        | cons y t2 => simpa [joinWith] using ih

theorem splitOnChar_pieces (sep : Char) (l : List Char) :
    ∀ p ∈ splitOnChar sep l, sep ∉ p := by
  induction l with
  | nil => intro p hp; simp [splitOnChar] at hp; simp [hp]
  | cons c cs ih =>
    intro p hp
    simp only [splitOnChar] at hp
    cases h : splitOnChar sep cs with
    | nil => exact absurd h (splitOnChar_ne_nil sep cs)
    | cons x t =>
      rw [h] at hp
      rw [h] at ih
      by_cases hc : c = sep
      · rw [if_pos hc] at hp
        rcases List.mem_cons.mp hp with h1 | h1
        · subst h1; simp
        · exact ih p h1
      · rw [if_neg hc] at hp
        simp only [List.headD_cons, List.tail_cons] at hp
        rcases List.mem_cons.mp hp with h1 | h1
        · subst h1
          intro hmem
          rcases List.mem_cons.mp hmem with h2 | h2
          · exact hc h2.symm
          · exact ih x (List.mem_cons_self x t) h2
        · exact ih p (List.mem_cons_of_mem x h1)

/-- If neither side contains the separator, splitting the joined string gives
exactly the two pieces back. -/
theorem splitOnChar_append (sep : Char) (p d : List Char)
    (hp : sep ∉ p) (hd : sep ∉ d) :
    splitOnChar sep (p ++ sep :: d) = [p, d] := by
  have hsplit_d : splitOnChar sep d = [d] := by
    clear hp
    induction d with
    | nil => rfl
    | cons c cs ih =>
      have hd2 : sep ∉ cs := fun h => hd (List.mem_cons_of_mem c h)
      have hc : ¬ c = sep := fun h => hd (h ▸ List.mem_cons_self c cs)
      simp only [splitOnChar, ih hd2, if_neg hc, List.headD_cons, List.tail_cons]
  induction p with
  | nil =>
    simp [List.nil_append, splitOnChar, hsplit_d]
  | cons c cs ih =>
    have hp2 : sep ∉ cs := fun h => hp (List.mem_cons_of_mem c h)
    have hc : ¬ c = sep := fun h => hp (h ▸ List.mem_cons_self c cs)
    simp only [List.cons_append, splitOnChar, List.append_eq, ih hp2, if_neg hc,
      List.headD_cons, List.tail_cons]

/-! ### RecoveryPoint.resume_from (checkpoint.py, `RecoveryPoint`) -/

/-- Property `RecoveryPoint.resume_from`: `None` for a falsy `last_batch_id`; otherwise
split on `'_'`; when there are exactly two parts and the second is all digits,
return `f"batch_{int(parts[1]) + 1:03d}"`, else `None`. -/
def resumeFrom (last_batch_id : Option String) : Option String :=
  match last_batch_id with
  | none => none
  | some s =>
    if s = "" then none
    else
      let parts := splitOnChar '_' s.data
      if parts.length = 2 ∧ isDigits (parts.getD 1 []) = true then
        some ("batch_" ++ padTo3 (digitsToNat (parts.getD 1 []) + 1))
      else none

example : resumeFrom (some "batch_001") = some "batch_002" := by decide
example : resumeFrom (some "batch_009") = some "batch_010" := by decide
example : resumeFrom (some "batch_999") = some "batch_1000" := by decide
example : resumeFrom (some "chunk_0009") = some "batch_010" := by decide
example : resumeFrom (some "a_b_003") = none := by decide
example : resumeFrom (some "") = none := by decide
example : resumeFrom (some "batch_") = none := by decide

theorem string_ne_empty_of_data {s : String} {l : List Char} (h : s.data = l)
    (hl : l ≠ []) : ¬ s = "" := by
  intro he
  subst he
  have hempty : "".data = ([] : List Char) := by decide
  exact hl (h.symm.trans hempty)

theorem isDigits_iff {d : List Char} :
    isDigits d = true ↔ d ≠ [] ∧ d.all Char.isDigit = true := by
  simp [isDigits, List.isEmpty_iff]

theorem length_two_shape {α : Type} {l : List α} (h : l.length = 2) :
    ∃ x y, l = [x, y] := by
  cases l with
  | nil => simp at h
  | cons a t =>
    cases t with
    | nil => simp at h
    | cons b t2 =>
      cases t2 with
      | nil => exact ⟨a, b, rfl⟩
      | cons c t3 => simp at h

/-- C4 — `resume_from` characterized.  For a conforming `last_batch_id` of
the shape `<text-without-underscore>_<digits>`, the result is the literal
prefix `"batch_"` (the original prefix is discarded) followed by the numeric
suffix plus one, zero-padded to width 3 (wider numbers keep their natural
width); in every other case (absent, empty, no single-underscore/digit
decomposition) the result is `none`. -/
theorem resume_from_characterization :
    resumeFrom none = none ∧
    ∀ (s r : String),
      (resumeFrom (some s) = some r ↔
        ∃ p d : List Char, s.data = p ++ '_' :: d ∧ '_' ∉ p ∧ '_' ∉ d ∧
          d ≠ [] ∧ d.all Char.isDigit = true ∧
          r = "batch_" ++ padTo3 (digitsToNat d + 1)) := by
  refine ⟨rfl, fun s r => ⟨?_, ?_⟩⟩
  · intro h
    simp only [resumeFrom] at h
    by_cases hs : s = ""
    · rw [if_pos hs] at h; cases h
    · rw [if_neg hs] at h
      by_cases hc : (splitOnChar '_' s.data).length = 2 ∧
          isDigits ((splitOnChar '_' s.data).getD 1 []) = true
      · obtain ⟨hlen, hdig⟩ := hc
        rw [if_pos ⟨hlen, hdig⟩] at h
        obtain ⟨x, d, hxd⟩ := length_two_shape hlen
        have hdata : s.data = x ++ '_' :: d := by
          have hj := joinWith_splitOnChar '_' s.data
          rw [hxd] at hj
          simpa [joinWith] using hj.symm
        have hx : '_' ∉ x := by
          have := splitOnChar_pieces '_' s.data x
          rw [hxd] at this
          exact this (by simp)
        have hd : '_' ∉ d := by
          have := splitOnChar_pieces '_' s.data d
          rw [hxd] at this
          exact this (by simp)
        rw [hxd] at hdig
        simp only [List.getD, List.getElem?_cons_succ, List.getElem?_cons_zero,
          Option.getD_some] at hdig
        obtain ⟨hdne, hdall⟩ := isDigits_iff.mp hdig
        rw [hxd] at h
        simp only [List.getD, List.getElem?_cons_succ, List.getElem?_cons_zero,
          Option.getD_some, Option.some.injEq] at h
        exact ⟨x, d, hdata, hx, hd, hdne, hdall, h.symm⟩
      · rw [if_neg hc] at h; cases h
  · rintro ⟨p, d, hdata, hp, hd, hdne, hdall, hr⟩
    have hs : ¬ s = "" := string_ne_empty_of_data hdata (by simp)
    have hsplit : splitOnChar '_' s.data = [p, d] := by
      rw [hdata]; exact splitOnChar_append '_' p d hp hd
    have hdig : isDigits d = true := isDigits_iff.mpr ⟨hdne, hdall⟩
    simp only [resumeFrom, if_neg hs, hsplit]
    rw [if_pos ⟨rfl, by simpa using hdig⟩]
    simp [hr]

/-- C4 counterexample to the claim as stated: the code does not keep the
prefix or the padding width.  `"chunk_0009"` yields `"batch_010"`, not
`"chunk_0010"`; and an id with two underscores yields `none`. -/
theorem resume_from_prefix_not_kept :
    resumeFrom (some "chunk_0009") = some "batch_010" ∧
    (some "batch_010" : Option String) ≠ some "chunk_0010" ∧
    resumeFrom (some "a_b_0009") = none := by
  refine ⟨by decide, by decide, by decide⟩

/-! ### Exceptions and checkpoint data model (checkpoint.py) -/

/-- Python exceptions raised or caught by the embedded code; `message` is
`str(e)`. -/
inductive PyExc where
  | valueError (msg : String)
  | conflictError (msg : String)
  | corruptCheckpointError (msg : String)
  | batchNotFoundError (msg : String)
  | otherError (msg : String)
deriving Repr, DecidableEq

def PyExc.message : PyExc → String
  | .valueError m => m
  | .conflictError m => m
  | .corruptCheckpointError m => m
  | .batchNotFoundError m => m
  | .otherError m => m

/-- Python `pat in l` (substring containment) on character lists. -/
def isSubstr (pat : List Char) : List Char → Bool
  | [] => pat.isEmpty
  | c :: cs => pat.isPrefixOf (c :: cs) || isSubstr pat cs

/-- Test in `update_checkpoint`'s except-clause:
`"concurrent" in str(e).lower() or "conflict" in str(e).lower()`. -/
def isConflictMsg (m : String) : Bool :=
  let lm := m.data.map Char.toLower
  isSubstr "concurrent".data lm || isSubstr "conflict".data lm

/-- Dataclass `Checkpoint` (the `timestamp` field carries no logic for the
claims and is omitted). -/
structure Checkpoint where
  last_batch_id : String
  total_persisted : Int
  status : String
  db_count_matches : Bool
deriving Repr, DecidableEq

/-- A checkpoint dictionary as stored in / read from the database
(`Checkpoint.to_dict` output, `get_latest_checkpoint` rows; `last_batch_id`
is a nullable column). -/
structure CpDict where
  last_batch_id : Option String
  total_persisted : Int
  status : String
deriving Repr, DecidableEq

def Checkpoint.toDict (c : Checkpoint) : CpDict :=
  ⟨some c.last_batch_id, c.total_persisted, c.status⟩

/-- Mutable state of a `CheckpointManager`: the in-memory `_checkpoints`
session list and the persisted checkpoint ledger (the rows successfully
written by `save_checkpoint`). -/
structure CMState where
  checkpoints : List Checkpoint
  saved : List CpDict
deriving Repr, DecidableEq

/-- Behaviour of the manager's `db` collaborator during one
`update_checkpoint` call: whether a db is attached, what
`get_latest_checkpoint` returns, whether `save_checkpoint` raises, and what
`get_document_count` returns. -/
structure CkptDb where
  present : Bool
  latest : Option CpDict
  saveExc : Option PyExc
  docCount : Int
deriving Repr, DecidableEq

/-- Cumulative-count computation of `update_checkpoint` (checkpoint.py
lines 137-148): `persisted_count` plus the last in-memory total, else the
db's latest checkpoint total, else nothing. -/
def cumulativeOf (db : CkptDb) (st : CMState) (pc : Int) : Int :=
  match st.checkpoints.getLast? with
  | some prev => pc + prev.total_persisted
  | none =>
    if db.present then
      match db.latest with
      | some latest => pc + latest.total_persisted
      | none => pc
    else pc

/-- The prior cumulative value as the specification words it: last in-memory
checkpoint of the session, else the latest checkpoint read from storage,
else zero. -/
def claimPrior (db : CkptDb) (st : CMState) : Int :=
  match st.checkpoints.getLast? with
  | some prev => prev.total_persisted
  | none =>
    if db.present then
      match db.latest with
      | some latest => latest.total_persisted
      | none => 0
    else 0

theorem cumulativeOf_eq (db : CkptDb) (st : CMState) (pc : Int) :
    cumulativeOf db st pc = pc + claimPrior db st := by
  unfold cumulativeOf claimPrior
  cases st.checkpoints.getLast? with
  | some prev => rfl
  | none =>
    cases hp : db.present with
    | false => simp
    | true =>
      cases db.latest with
      | some latest => simp
      | none => simp

/-- The checkpoint object built by `update_checkpoint` (status `"committed"`;
`db_count_matches` compares the db's document count with the cumulative total
when verification is requested and a db is attached). -/
def newCheckpoint (db : CkptDb) (st : CMState) (bid : String) (pc : Int)
    (v : Bool) : Checkpoint :=
  ⟨bid, cumulativeOf db st pc, "committed",
    v && db.present && (db.docCount == cumulativeOf db st pc)⟩

/-- Method `CheckpointManager.update_checkpoint` (checkpoint.py 111-178),
modelled without a `checkpoint_file` (the file mirror carries no logic for
the claims).  Negative counts raise `ValueError` before any mutation; the new
checkpoint is appended to `_checkpoints` *before* `save_checkpoint`, and on a
save failure the exception (translated to `ConflictError` when its message
mentions concurrency) propagates while the appended entry stays. -/
def update_checkpoint (db : CkptDb) (st : CMState) (bid : String) (pc : Int)
    (v : Bool) : Except PyExc Checkpoint × CMState :=
  if pc < 0 then
    (.error (.valueError "persisted_count must be non-negative"), st)
  else
    let cp := newCheckpoint db st bid pc v
    let appended := st.checkpoints ++ [cp]
    if db.present then
      match db.saveExc with
      | some e =>
        if isConflictMsg e.message then
          (.error (.conflictError "Concurrent update detected"), ⟨appended, st.saved⟩)
        else
          (.error e, ⟨appended, st.saved⟩)
      | none => (.ok cp, ⟨appended, st.saved ++ [cp.toDict]⟩)
    else (.ok cp, ⟨appended, st.saved⟩)

/-- Dataclass `RecoveryPoint` (`resume_from` is the derived property
`resumeFrom last_batch_id`). -/
structure RecoveryPoint where
  last_batch_id : Option String
  total_persisted : Int
  can_resume : Bool
deriving Repr, DecidableEq

/-- Method `CheckpointManager.get_recovery_point` (checkpoint.py 180-225):
storage's latest checkpoint first, in-memory fallback, fresh-start point when
neither exists, `CorruptCheckpointError` on a negative total.  (The
missing-field and non-dict corruption checks cannot fire in the typed
embedding.) -/
def get_recovery_point (dbPresent : Bool) (dbLatest : Option CpDict)
    (st : CMState) : Except PyExc RecoveryPoint :=
  let latest : Option CpDict :=
    match (if dbPresent then dbLatest else none) with
    | some d => some d
    | none => st.checkpoints.getLast?.map Checkpoint.toDict
  match latest with
  | none => .ok ⟨none, 0, false⟩
  | some d =>
    if d.total_persisted < 0 then
      .error (.corruptCheckpointError "Checkpoint has negative total_persisted")
    else
      .ok ⟨d.last_batch_id, d.total_persisted, d.last_batch_id.isSome⟩

theorem update_checkpoint_neg (db : CkptDb) (st : CMState) (bid : String)
    (pc : Int) (v : Bool) (h : pc < 0) :
    update_checkpoint db st bid pc v =
      (.error (.valueError "persisted_count must be non-negative"), st) := by
  simp [update_checkpoint, if_pos h]

theorem update_checkpoint_checkpoints_append (db : CkptDb) (st : CMState)
    (bid : String) (pc : Int) (v : Bool) (hneg : ¬ pc < 0) :
    (update_checkpoint db st bid pc v).2.checkpoints =
      st.checkpoints ++ [newCheckpoint db st bid pc v] := by
  simp only [update_checkpoint, if_neg hneg]
  cases hs : db.saveExc with
  | none => cases hp : db.present <;> simp [hp, hs]
  | some e =>
    cases hp : db.present
    · simp [hp, hs]
    · by_cases hc : isConflictMsg e.message <;> simp [hp, hs, hc]

theorem cumulativeOf_of_getLast (db : CkptDb) (st : CMState) {cp : Checkpoint}
    (pc : Int) (h : st.checkpoints.getLast? = some cp) :
    cumulativeOf db st pc = pc + cp.total_persisted := by
  unfold cumulativeOf
  rw [h]

/-- C3 — the cumulative rule of `update_checkpoint`: for a non-negative
count the appended checkpoint's total is `persisted_count` plus the prior
cumulative value with precedence in-memory last / storage latest / zero; a
negative count raises `ValueError` and leaves the state untouched. -/
theorem update_checkpoint_cumulative_rule (db : CkptDb) (st : CMState)
    (bid : String) (pc : Int) (v : Bool) :
    (0 ≤ pc → ∃ b, (update_checkpoint db st bid pc v).2.checkpoints =
        st.checkpoints ++ [⟨bid, pc + claimPrior db st, "committed", b⟩]) ∧
    (pc < 0 → update_checkpoint db st bid pc v =
        (.error (.valueError "persisted_count must be non-negative"), st)) := by
  constructor
  · intro hpc
    refine ⟨v && db.present && (db.docCount == cumulativeOf db st pc), ?_⟩
    rw [update_checkpoint_checkpoints_append db st bid pc v (not_lt.mpr hpc)]
    simp [newCheckpoint, cumulativeOf_eq]
  · exact update_checkpoint_neg db st bid pc v

/-- Witness for C3: both branches of the rule at concrete inputs. -/
theorem update_checkpoint_cumulative_rule_witness :
    (∃ b, (update_checkpoint ⟨true, some ⟨some "batch_004", 7, "committed"⟩, none, 0⟩
        ⟨[], []⟩ "batch_005" 5 false).2.checkpoints =
        (⟨[], []⟩ : CMState).checkpoints ++
          [⟨"batch_005", 5 + claimPrior ⟨true, some ⟨some "batch_004", 7, "committed"⟩, none, 0⟩ ⟨[], []⟩,
            "committed", b⟩]) ∧
    (update_checkpoint ⟨false, none, none, 0⟩ ⟨[], []⟩ "batch_001" (-1) false =
        (.error (.valueError "persisted_count must be non-negative"), ⟨[], []⟩)) :=
  ⟨(update_checkpoint_cumulative_rule ⟨true, some ⟨some "batch_004", 7, "committed"⟩, none, 0⟩
      ⟨[], []⟩ "batch_005" 5 false).1 (by decide),
   (update_checkpoint_cumulative_rule ⟨false, none, none, 0⟩
      ⟨[], []⟩ "batch_001" (-1) false).2 (by decide)⟩

/-! ### Sessions of update_checkpoint calls (for monotonicity) -/

/-- One `update_checkpoint` call of a session: collaborator behaviour and
arguments. -/
structure UStep where
  db : CkptDb
  batch_id : String
  persisted_count : Int
  verify : Bool
deriving Repr, DecidableEq

/-- Run a sequence of `update_checkpoint` calls on one manager. -/
def runCM : List UStep → CMState → CMState
  | [], st => st
  | u :: rest, st =>
    runCM rest (update_checkpoint u.db st u.batch_id u.persisted_count u.verify).2

/-- The session checkpoint list is monotone in `total_persisted`. -/
def totalsMono (l : List Checkpoint) : Prop :=
  l.Chain' (fun a b => a.total_persisted ≤ b.total_persisted)

theorem update_checkpoint_mono_step (db : CkptDb) (st : CMState) (bid : String)
    (pc : Int) (v : Bool) (h : totalsMono st.checkpoints) :
    totalsMono (update_checkpoint db st bid pc v).2.checkpoints := by
  by_cases hneg : pc < 0
  · rw [update_checkpoint_neg db st bid pc v hneg]
    exact h
  · rw [update_checkpoint_checkpoints_append db st bid pc v hneg]
    unfold totalsMono at h ⊢
    rw [List.chain'_append]
    refine ⟨h, List.chain'_singleton _, ?_⟩
    intro x hx y hy
    simp only [List.head?_cons, Option.mem_def, Option.some.injEq] at hy
    subst hy
    simp only [Option.mem_def] at hx
    have hcum := cumulativeOf_of_getLast db st pc hx
    show x.total_persisted ≤ (newCheckpoint db st bid pc v).total_persisted
    simp only [newCheckpoint]
    rw [hcum]
    have := not_lt.mp hneg
    omega

/-- C7 — within one session, `total_persisted` is monotonically
non-decreasing across the checkpoints appended by successive
`update_checkpoint` calls (failed validations append nothing). -/
theorem session_totals_monotone (steps : List UStep) (st : CMState)
    (h : totalsMono st.checkpoints) :
    totalsMono (runCM steps st).checkpoints := by
  induction steps generalizing st with
  | nil => exact h
  | cons u rest ih =>
    exact ih _ (update_checkpoint_mono_step u.db st u.batch_id u.persisted_count u.verify h)

/-- Witness for C7: a concrete two-call session starting from a fresh
manager. -/
theorem session_totals_monotone_witness :
    totalsMono (runCM [⟨⟨false, none, none, 0⟩, "batch_001", 5, false⟩,
        ⟨⟨false, none, none, 0⟩, "batch_002", 3, false⟩] ⟨[], []⟩).checkpoints :=
  session_totals_monotone _ _ (by simp [totalsMono])

/-- C9 — `update_checkpoint` is not atomic w.r.t. persistence failure: when
`save_checkpoint` raises, the exception propagates (translated to
`ConflictError` for concurrency messages) but the new checkpoint stays in the
in-memory session list while the persisted ledger is unchanged; a later call
computes its cumulative total from that never-durably-stored entry, and
`get_recovery_point`'s in-memory fallback returns it when storage holds no
checkpoint. -/
theorem update_checkpoint_save_failure_keeps_entry (db : CkptDb) (st : CMState)
    (bid : String) (pc : Int) (v : Bool) (e : PyExc)
    (hpc : 0 ≤ pc) (hdb : db.present = true) (hsave : db.saveExc = some e) :
    (update_checkpoint db st bid pc v).1 =
      .error (if isConflictMsg e.message then
        .conflictError "Concurrent update detected" else e) ∧
    (update_checkpoint db st bid pc v).2.checkpoints =
      st.checkpoints ++ [newCheckpoint db st bid pc v] ∧
    (update_checkpoint db st bid pc v).2.saved = st.saved ∧
    (∀ db2 pc2, 0 ≤ pc2 →
      cumulativeOf db2 (update_checkpoint db st bid pc v).2 pc2 =
        pc2 + (newCheckpoint db st bid pc v).total_persisted) ∧
    (0 ≤ (newCheckpoint db st bid pc v).total_persisted →
      get_recovery_point true none (update_checkpoint db st bid pc v).2 =
        .ok ⟨some bid, (newCheckpoint db st bid pc v).total_persisted, true⟩) := by
  have hneg : ¬ pc < 0 := not_lt.mpr hpc
  have happ := update_checkpoint_checkpoints_append db st bid pc v hneg
  have hlast : (update_checkpoint db st bid pc v).2.checkpoints.getLast? =
      some (newCheckpoint db st bid pc v) := by
    rw [happ, List.getLast?_concat]
  refine ⟨?_, happ, ?_, ?_, ?_⟩
  · simp only [update_checkpoint, if_neg hneg, hsave]
    cases hp : db.present
    · rw [hp] at hdb; cases hdb
    · by_cases hc : isConflictMsg e.message <;> simp [hc]
  · simp only [update_checkpoint, if_neg hneg, hsave]
    cases hp : db.present
    · rw [hp] at hdb; cases hdb
    · by_cases hc : isConflictMsg e.message <;> simp [hc]
  · intro db2 pc2 _
    exact cumulativeOf_of_getLast db2 (update_checkpoint db st bid pc v).2 pc2 hlast
  · intro hnn
    have hnn2 : ¬ (newCheckpoint db st bid pc v).total_persisted < 0 := not_lt.mpr hnn
    simp [get_recovery_point, hlast, Checkpoint.toDict, newCheckpoint] at hnn2 ⊢
    simp [hnn2]

/-- Witness for C9: a save failure with message "disk full" at a concrete
state. -/
theorem update_checkpoint_save_failure_keeps_entry_witness :
    (update_checkpoint ⟨true, none, some (.otherError "disk full"), 0⟩
        ⟨[], []⟩ "batch_001" 5 false).2.checkpoints =
      (⟨[], []⟩ : CMState).checkpoints ++
        [newCheckpoint ⟨true, none, some (.otherError "disk full"), 0⟩
          ⟨[], []⟩ "batch_001" 5 false] ∧
    get_recovery_point true none
        (update_checkpoint ⟨true, none, some (.otherError "disk full"), 0⟩
          ⟨[], []⟩ "batch_001" 5 false).2 =
      .ok ⟨some "batch_001",
        (newCheckpoint ⟨true, none, some (.otherError "disk full"), 0⟩
          ⟨[], []⟩ "batch_001" 5 false).total_persisted, true⟩ :=
  ⟨(update_checkpoint_save_failure_keeps_entry
      ⟨true, none, some (.otherError "disk full"), 0⟩ ⟨[], []⟩ "batch_001" 5 false
      (.otherError "disk full") (by decide) rfl rfl).2.1,
   (update_checkpoint_save_failure_keeps_entry
      ⟨true, none, some (.otherError "disk full"), 0⟩ ⟨[], []⟩ "batch_001" 5 false
      (.otherError "disk full") (by decide) rfl rfl).2.2.2.2 (by decide)⟩

/-! ### StreamingBatchWriter (streaming.py) -/

/-- A submitted document: `id` / `content` are `none` when the field is
missing or `None` (the two cases the validation treats identically).  Extra
payload fields carry no logic for the claims. -/
structure Doc where
  id : Option String
  content : Option String
deriving Repr, DecidableEq

/-- Dataclass `BatchResult`. -/
structure BatchResult where
  success : Bool
  persisted_count : Nat
  batch_id : String
  checkpoint_updated : Bool
  error : Option String
deriving Repr, DecidableEq

/-- Mutable state reachable from a `StreamingBatchWriter`: the shared
checkpoint manager state, `_processed_batch_ids`, the keys of
`_pending_batches`, and the batches successfully inserted into storage. -/
structure WState where
  cm : CMState
  processed : List String
  pending : List String
  stored : List (String × List Doc)
deriving Repr, DecidableEq

/-- Per-document validation loop of `process_batch` (streaming.py 70-74):
the first offending document raises. -/
def validateDocs : List Doc → Option PyExc
  | [] => none
  | d :: ds =>
    if d.id.isNone then some (.valueError "Document missing required field: id")
    else if d.content.isNone then
      some (.valueError "Document missing required field: content")
    else validateDocs ds

/-- Method `StreamingBatchWriter.process_batch` (streaming.py 47-117).
`wdb` says whether the writer holds a db connection, `cmPresent` whether it
holds a checkpoint manager, `ckdb` is the manager db's behaviour for this
call and `insertExc` the outcome of `insert_documents` (`some e` = raises).
Validation failures raise; failures inside the try-block are caught and
turned into a failed `BatchResult`. -/
def process_batch (wdb cmPresent : Bool) (ckdb : CkptDb)
    (insertExc : Option PyExc) (st : WState) (documents : List Doc)
    (batch_id : String) : Except PyExc BatchResult × WState :=
  if documents.isEmpty then
    (.error (.valueError "Batch cannot be empty"), st)
  else if batch_id ∈ st.processed then
    (.error (.valueError "Batch ID already exists"), st)
  else
    match validateDocs documents with
    | some e => (.error e, st)
    | none =>
      match (if wdb then insertExc else none) with
      | some e => (.ok ⟨false, 0, batch_id, false, some e.message⟩, st)
      | none =>
        let st1 : WState :=
          if wdb then { st with stored := st.stored ++ [(batch_id, documents)] }
          else st
        if cmPresent then
          let u := update_checkpoint ckdb st1.cm batch_id (documents.length : Int) false
          match u.1 with
          | .error e =>
            (.ok ⟨false, 0, batch_id, false, some e.message⟩, { st1 with cm := u.2 })
          | .ok _ =>
            (.ok ⟨true, documents.length, batch_id, true, none⟩,
              { st1 with cm := u.2, processed := st1.processed ++ [batch_id] })
        else
          (.ok ⟨true, documents.length, batch_id, false, none⟩,
            { st1 with processed := st1.processed ++ [batch_id] })

/-- Method `StreamingBatchWriter.commit_batch` (streaming.py 119-139):
raises `BatchNotFoundError` unless the id is pending, else commits and
removes it. -/
def commit_batch (st : WState) (batch_id : String) : Except PyExc Bool × WState :=
  if batch_id ∈ st.pending then
    (.ok true, { st with pending := st.pending.erase batch_id })
  else
    (.error (.batchNotFoundError ("Batch " ++ batch_id ++ " not found")), st)

/-- One `process_batch` call of a session: the submitted batch and the
collaborator behaviour during the call. -/
structure Step where
  documents : List Doc
  batch_id : String
  ckdb : CkptDb
  insertExc : Option PyExc
deriving Repr, DecidableEq

/-- Run a sequence of `process_batch` calls on one writer, collecting each
call's outcome. -/
def runWriter (wdb cmPresent : Bool) :
    List Step → WState → WState × List (Except PyExc BatchResult)
  | [], st => (st, [])
  | s :: rest, st =>
    let pr := process_batch wdb cmPresent s.ckdb s.insertExc st s.documents s.batch_id
    let rec2 := runWriter wdb cmPresent rest pr.2
    (rec2.1, pr.1 :: rec2.2)

/-- A freshly constructed writer and manager. -/
def initW : WState := ⟨⟨[], []⟩, [], [], []⟩

/-- C1 (amended) — when input validation passes and the storage
`insert_documents` call raises, `process_batch` catches the exception and
returns `success=false`, `persisted_count=0` with `error` set to the
exception's message (possibly empty), and the entire writer/manager state —
in particular the in-memory checkpoint list and the persisted checkpoint
ledger — is exactly what it was before the call. -/
theorem process_batch_storage_failure (cmPresent : Bool) (ckdb : CkptDb)
    (insertFail : PyExc) (st : WState) (documents : List Doc)
    (batch_id : String) (hne : documents ≠ []) (hfresh : batch_id ∉ st.processed)
    (hvalid : validateDocs documents = none) :
    process_batch true cmPresent ckdb (some insertFail) st documents batch_id =
      (.ok ⟨false, 0, batch_id, false, some insertFail.message⟩, st) := by
  cases documents with
  | nil => exact absurd rfl hne
  | cons d ds =>
    simp only [process_batch, List.isEmpty_cons, Bool.false_eq_true, if_false,
      if_neg hfresh, hvalid, if_true]

/-- Witness for C1's amended theorem at a concrete failing insert. -/
theorem process_batch_storage_failure_witness :
    process_batch true false ⟨false, none, none, 0⟩ (some (.otherError "boom"))
        initW [⟨some "doc1", some "text"⟩] "batch_001" =
      (.ok ⟨false, 0, "batch_001", false, some (PyExc.otherError "boom").message⟩,
        initW) :=
  process_batch_storage_failure false ⟨false, none, none, 0⟩ (.otherError "boom")
    initW [⟨some "doc1", some "text"⟩] "batch_001" (by decide) (by decide) (by decide)

/-- The error-message property C1 claims of a failed batch result. -/
def errorNonEmpty (r : Except PyExc BatchResult) : Prop :=
  ∃ res m, r = .ok res ∧ res.error = some m ∧ m ≠ ""

/-- C1 counterexample to "non-empty error message": a storage exception whose
`str(e)` is empty yields `error=""`, which is set but empty. -/
theorem process_batch_storage_failure_empty_error :
    (process_batch true false ⟨false, none, none, 0⟩ (some (.otherError ""))
        initW [⟨some "doc1", some "text"⟩] "batch_001").1 =
      .ok ⟨false, 0, "batch_001", false, some ""⟩ ∧
    ¬ errorNonEmpty (process_batch true false ⟨false, none, none, 0⟩
        (some (.otherError "")) initW [⟨some "doc1", some "text"⟩] "batch_001").1 := by
  constructor
  · rfl
  · rintro ⟨res, m, hr, he, hm⟩
    have hres : res = ⟨false, 0, "batch_001", false, some ""⟩ := by
      have h2 : (Except.ok res : Except PyExc BatchResult) =
          .ok ⟨false, 0, "batch_001", false, some ""⟩ := by
        rw [← hr]; rfl
      exact Except.ok.inj h2
    rw [hres] at he
    exact hm (Option.some.inj he).symm

theorem validateDocs_none_iff (l : List Doc) :
    validateDocs l = none ↔ ∀ d ∈ l, d.id ≠ none ∧ d.content ≠ none := by
  induction l with
  | nil => simp [validateDocs]
  | cons d ds ih =>
    cases hid : d.id with
    | none => simp [validateDocs, hid]
    | some i =>
      cases hct : d.content with
      | none => simp [validateDocs, hid, hct]
      | some c => simp [validateDocs, hid, hct, ih]

theorem validateDocs_some_valueError (l : List Doc) (e : PyExc)
    (h : validateDocs l = some e) : ∃ m, e = .valueError m := by
  induction l with
  | nil => cases h
  | cons d ds ih =>
    simp only [validateDocs] at h
    by_cases h1 : d.id.isNone = true
    · rw [if_pos h1] at h
      exact ⟨_, (Option.some.inj h).symm⟩
    · rw [if_neg h1] at h
      by_cases h2 : d.content.isNone = true
      · rw [if_pos h2] at h
        exact ⟨_, (Option.some.inj h).symm⟩
      · rw [if_neg h2] at h
        exact ih h

theorem process_batch_no_raise (wdb cmPresent : Bool) (ckdb : CkptDb)
    (insertExc : Option PyExc) (st : WState) (documents : List Doc)
    (batch_id : String) (hne : documents ≠ []) (hfresh : batch_id ∉ st.processed)
    (hvalid : validateDocs documents = none) :
    ∃ r, (process_batch wdb cmPresent ckdb insertExc st documents batch_id).1 =
      .ok r := by
  cases documents with
  | nil => exact absurd rfl hne
  | cons d ds =>
    simp only [process_batch, List.isEmpty_cons, Bool.false_eq_true, if_false,
      if_neg hfresh, hvalid]
    cases hins : (if wdb then insertExc else none) with
    | some e => exact ⟨_, rfl⟩
    | none =>
      cases hcm : cmPresent with
      | false => simp
      | true =>
        simp only [if_true]
        cases hu : (update_checkpoint ckdb
            (if wdb then
              { st with stored := st.stored ++ [(batch_id, d :: ds)] }
            else st).cm batch_id ((d :: ds).length : Int) false).1 with
        | error e => simp [hu]
        | ok cp => simp [hu]

/-- C6 — `process_batch` raises (a `ValueError`/ValidationError) exactly when
the batch is empty, the batch id was already successfully processed this
session, or some document lacks an id or content; every such raise happens
with the message "Batch cannot be empty" in the empty case, and leaves the
writer state, storage contents and checkpoint state untouched. -/
theorem process_batch_validation (wdb cmPresent : Bool) (ckdb : CkptDb)
    (insertExc : Option PyExc) (st : WState) (documents : List Doc)
    (batch_id : String) :
    ((∃ e, (process_batch wdb cmPresent ckdb insertExc st documents batch_id).1 =
        .error e) ↔
      (documents = [] ∨ batch_id ∈ st.processed ∨
        ∃ d ∈ documents, d.id = none ∨ d.content = none)) ∧
    (∀ e, (process_batch wdb cmPresent ckdb insertExc st documents batch_id).1 =
        .error e →
      (process_batch wdb cmPresent ckdb insertExc st documents batch_id).2 = st ∧
      ∃ m, e = .valueError m) ∧
    (documents = [] →
      (process_batch wdb cmPresent ckdb insertExc st documents batch_id).1 =
        .error (.valueError "Batch cannot be empty")) := by
  by_cases h1 : documents = []
  · subst h1
    refine ⟨?_, ?_, ?_⟩
    · simp [process_batch]
    · intro e he
      have hred : process_batch wdb cmPresent ckdb insertExc st [] batch_id =
          (.error (.valueError "Batch cannot be empty"), st) := by
        simp [process_batch]
      rw [hred] at he
      rw [hred]
      exact ⟨rfl, ⟨_, (Except.error.inj he).symm⟩⟩
    · intro _
      simp [process_batch]
  · obtain ⟨d, ds, rfl⟩ : ∃ d ds, documents = d :: ds := by
      cases documents with
      | nil => exact absurd rfl h1
      | cons d ds => exact ⟨d, ds, rfl⟩
    by_cases h2 : batch_id ∈ st.processed
    · have hred : process_batch wdb cmPresent ckdb insertExc st (d :: ds) batch_id =
          (.error (.valueError "Batch ID already exists"), st) := by
        simp [process_batch, h2]
      refine ⟨?_, ?_, ?_⟩
      · rw [hred]
        simp only [Except.error.injEq]
        constructor
        · intro _; exact Or.inr (Or.inl h2)
        · intro _; exact ⟨_, rfl⟩
      · intro e he
        rw [hred] at he ⊢
        exact ⟨rfl, ⟨_, (Except.error.inj he).symm⟩⟩
      · intro h; cases h
    · cases hv : validateDocs (d :: ds) with
      | some e0 =>
        have hred : process_batch wdb cmPresent ckdb insertExc st (d :: ds) batch_id =
            (.error e0, st) := by
          simp [process_batch, h2, hv]
        have hbad : ∃ dd ∈ d :: ds, dd.id = none ∨ dd.content = none := by
          by_contra hall
          push_neg at hall
          have : validateDocs (d :: ds) = none := by
            rw [validateDocs_none_iff]
            intro dd hdd
            have h3 := hall dd hdd
            exact ⟨h3.1, h3.2⟩
          rw [this] at hv; cases hv
        refine ⟨?_, ?_, ?_⟩
        · rw [hred]
          constructor
          · intro _; exact Or.inr (Or.inr hbad)
          · intro _; exact ⟨_, rfl⟩
        · intro e he
          rw [hred] at he ⊢
          refine ⟨rfl, ?_⟩
          obtain ⟨m, hm⟩ := validateDocs_some_valueError _ _ hv
          subst hm
          exact ⟨m, (Except.error.inj he).symm⟩
        · intro h; cases h
      | none =>
        obtain ⟨r, hr⟩ := process_batch_no_raise wdb cmPresent ckdb insertExc st
          (d :: ds) batch_id h1 h2 hv
        refine ⟨?_, ?_, ?_⟩
        · rw [hr]
          constructor
          · rintro ⟨e, he⟩; cases he
          · rintro (h | h | h)
            · exact absurd h h1
            · exact absurd h h2
            · exfalso
              obtain ⟨dd, hdd, hbad⟩ := h
              have := (validateDocs_none_iff (d :: ds)).mp hv dd hdd
              rcases hbad with hb | hb
              · exact this.1 hb
              · exact this.2 hb
        · intro e he
          rw [hr] at he; cases he
        · intro h; cases h

theorem process_batch_pending_unchanged (wdb cmPresent : Bool) (ckdb : CkptDb)
    (insertExc : Option PyExc) (st : WState) (documents : List Doc)
    (batch_id : String) :
    (process_batch wdb cmPresent ckdb insertExc st documents batch_id).2.pending =
      st.pending := by
  unfold process_batch
  repeat' split
  all_goals try rfl
  all_goals dsimp only
  all_goals split <;> rfl

theorem runWriter_pending (wdb cmPresent : Bool) (steps : List Step)
    (st : WState) :
    (runWriter wdb cmPresent steps st).1.pending = st.pending := by
  induction steps generalizing st with
  | nil => rfl
  | cons s rest ih =>
    simp only [runWriter]
    rw [ih]
    exact process_batch_pending_unchanged wdb cmPresent s.ckdb s.insertExc st
      s.documents s.batch_id

/-- C10 — after any sequence of `process_batch` calls on a fresh writer, the
pending-batch map is still empty, so `commit_batch` raises
`BatchNotFoundError` for every batch id: the two-phase commit path is
unreachable through the public interface. -/
theorem commit_batch_always_fails (wdb cmPresent : Bool) (steps : List Step)
    (bid : String) :
    commit_batch (runWriter wdb cmPresent steps initW).1 bid =
      (.error (.batchNotFoundError ("Batch " ++ bid ++ " not found")),
        (runWriter wdb cmPresent steps initW).1) := by
  have hp : (runWriter wdb cmPresent steps initW).1.pending = [] :=
    runWriter_pending wdb cmPresent steps initW
  simp [commit_batch, hp]

/-! ### Session-level accounting for process_batch (C2) -/

/-- The cumulative total recorded by the most recent checkpoint of a session
(zero when none exists yet). -/
def lastTotal (l : List Checkpoint) : Int :=
  match l.getLast? with
  | some c => c.total_persisted
  | none => 0

/-- What one call contributes to the sum of `persisted_count` over
successful calls. -/
def successContribution (r : Except PyExc BatchResult) : Int :=
  match r with
  | .ok res => if res.success then (res.persisted_count : Int) else 0
  | .error _ => 0

/-- Sum of `persisted_count` over the successful calls of a session. -/
def successSum : List (Except PyExc BatchResult) → Int
  | [] => 0
  | r :: rest => successContribution r + successSum rest

theorem lastTotal_concat (l : List Checkpoint) (cp : Checkpoint) :
    lastTotal (l ++ [cp]) = cp.total_persisted := by
  simp [lastTotal, List.getLast?_concat]

/-- The prior cumulative value a session starts from: what
`update_checkpoint` would source with an empty in-memory list — storage's
latest checkpoint total when a db is attached and storage has one, else
zero. -/
def baseOf (db : CkptDb) : Int :=
  claimPrior db ⟨[], []⟩

/-- The cumulative total recorded by the most recent session checkpoint,
defaulting to the session's prior cumulative base `B` while none exists
yet. -/
def lastTotalB (B : Int) (l : List Checkpoint) : Int :=
  match l.getLast? with
  | some c => c.total_persisted
  | none => B

theorem lastTotalB_concat (B : Int) (l : List Checkpoint) (cp : Checkpoint) :
    lastTotalB B (l ++ [cp]) = cp.total_persisted := by
  simp [lastTotalB, List.getLast?_concat]

theorem claimPrior_eq_lastTotalB (db : CkptDb) (st : CMState) (B : Int)
    (h : baseOf db = B) : claimPrior db st = lastTotalB B st.checkpoints := by
  rw [← h]
  unfold baseOf claimPrior lastTotalB
  cases st.checkpoints.getLast? with
  | some c => rfl
  | none => rfl

theorem update_checkpoint_save_ok (db : CkptDb) (st : CMState) (bid : String)
    (pc : Int) (v : Bool) (hneg : ¬ pc < 0) (hsave : db.saveExc = none) :
    (update_checkpoint db st bid pc v).1 = .ok (newCheckpoint db st bid pc v) := by
  simp only [update_checkpoint, if_neg hneg, hsave]
  cases hp : db.present <;> simp

theorem process_batch_lastTotal_step (wdb : Bool) (ckdb : CkptDb)
    (insertExc : Option PyExc) (st : WState) (documents : List Doc)
    (batch_id : String) (B : Int) (hsave : ckdb.saveExc = none)
    (hbase : baseOf ckdb = B) :
    lastTotalB B (process_batch wdb true ckdb insertExc st documents
        batch_id).2.cm.checkpoints =
      lastTotalB B st.cm.checkpoints +
        successContribution (process_batch wdb true ckdb insertExc st documents
          batch_id).1 := by
  by_cases h1 : documents = []
  · subst h1
    simp [process_batch, successContribution]
  · obtain ⟨d, ds, rfl⟩ : ∃ d ds, documents = d :: ds := by
      cases documents with
      | nil => exact absurd rfl h1
      | cons d ds => exact ⟨d, ds, rfl⟩
    by_cases h2 : batch_id ∈ st.processed
    · simp [process_batch, h2, successContribution]
    · cases hv : validateDocs (d :: ds) with
      | some e0 => simp [process_batch, h2, hv, successContribution]
      | none =>
        simp only [process_batch, List.isEmpty_cons, Bool.false_eq_true, if_false,
          if_neg h2, hv]
        cases hins : (if wdb then insertExc else none) with
        | some e => simp [successContribution]
        | none =>
          have hneg : ¬ (((d :: ds).length : Nat) : Int) < 0 := by omega
          have hok := update_checkpoint_save_ok ckdb st.cm batch_id
            (((d :: ds).length : Nat) : Int) false hneg hsave
          have happ := update_checkpoint_checkpoints_append ckdb st.cm batch_id
            (((d :: ds).length : Nat) : Int) false hneg
          cases hw : wdb
          · simp only [hw, Bool.false_eq_true, if_false, if_true]
            rw [hok]
            dsimp only
            rw [happ, lastTotalB_concat]
            simp only [newCheckpoint, cumulativeOf_eq,
              claimPrior_eq_lastTotalB ckdb st.cm B hbase, successContribution]
            simp
            omega
          · simp only [hw, if_true]
            rw [hok]
            dsimp only
            rw [happ, lastTotalB_concat]
            simp only [newCheckpoint, cumulativeOf_eq,
              claimPrior_eq_lastTotalB ckdb st.cm B hbase, successContribution]
            simp
            omega

theorem process_batch_success_count (wdb cmPresent : Bool) (ckdb : CkptDb)
    (insertExc : Option PyExc) (st : WState) (documents : List Doc)
    (batch_id : String) (res : BatchResult)
    (h : (process_batch wdb cmPresent ckdb insertExc st documents batch_id).1 =
      .ok res) (hs : res.success = true) :
    res.persisted_count = documents.length := by
  unfold process_batch at h
  by_cases h1 : documents.isEmpty = true
  · rw [if_pos h1] at h; cases h
  · rw [if_neg h1] at h
    by_cases h2 : batch_id ∈ st.processed
    · rw [if_pos h2] at h; cases h
    · rw [if_neg h2] at h
      cases hv : validateDocs documents with
      | some e0 => simp only [hv] at h; cases h
      | none =>
        simp only [hv] at h
        cases hw : wdb
        · simp only [hw, Bool.false_eq_true, if_false] at h
          cases hcm : cmPresent
          · simp only [hcm, Bool.false_eq_true, if_false] at h
            rw [← Except.ok.inj h]
          · simp only [hcm, if_true] at h
            cases hu : (update_checkpoint ckdb st.cm batch_id
                ((documents.length : Nat) : Int) false).1 with
            | error e =>
              simp only [hu] at h
              rw [← Except.ok.inj h] at hs
              exact Bool.noConfusion hs
            | ok cp =>
              simp only [hu] at h
              rw [← Except.ok.inj h]
        · simp only [hw, if_true] at h
          cases hins : insertExc with
          | some e =>
            simp only [hins] at h
            rw [← Except.ok.inj h] at hs
            exact Bool.noConfusion hs
          | none =>
            simp only [hins] at h
            cases hcm : cmPresent
            · simp only [hcm, Bool.false_eq_true, if_false] at h
              rw [← Except.ok.inj h]
            · simp only [hcm, if_true] at h
              cases hu : (update_checkpoint ckdb st.cm batch_id
                  ((documents.length : Nat) : Int) false).1 with
              | error e =>
                simp only [hu] at h
                rw [← Except.ok.inj h] at hs
                exact Bool.noConfusion hs
              | ok cp =>
                simp only [hu] at h
                rw [← Except.ok.inj h]

theorem runWriter_results_success_count (wdb cmPresent : Bool)
    (steps : List Step) (st : WState) :
    ∀ pr ∈ steps.zip (runWriter wdb cmPresent steps st).2, ∀ res : BatchResult,
      pr.2 = .ok res → res.success = true →
      res.persisted_count = pr.1.documents.length := by
  induction steps generalizing st with
  | nil => intro pr hpr; simp [runWriter] at hpr
  | cons s rest ih =>
    intro pr hpr res hok hsucc
    simp only [runWriter, List.zip_cons_cons] at hpr
    rcases List.mem_cons.mp hpr with h1 | h1
    · subst h1
      exact process_batch_success_count wdb cmPresent s.ckdb s.insertExc st
        s.documents s.batch_id res hok hsucc
    · exact ih (process_batch wdb cmPresent s.ckdb s.insertExc st s.documents
        s.batch_id).2 pr h1 res hok hsucc

theorem runWriter_lastTotalB (wdb : Bool) (B : Int) (steps : List Step)
    (st : WState) (hsave : ∀ s ∈ steps, s.ckdb.saveExc = none)
    (hbase : ∀ s ∈ steps, baseOf s.ckdb = B) :
    lastTotalB B (runWriter wdb true steps st).1.cm.checkpoints =
      lastTotalB B st.cm.checkpoints +
        successSum (runWriter wdb true steps st).2 := by
  induction steps generalizing st with
  | nil => simp [runWriter, successSum]
  | cons s rest ih =>
    simp only [runWriter, successSum]
    rw [ih ((process_batch wdb true s.ckdb s.insertExc st s.documents s.batch_id).2)
      (fun x hx => hsave x (List.mem_cons_of_mem s hx))
      (fun x hx => hbase x (List.mem_cons_of_mem s hx))]
    rw [process_batch_lastTotal_step wdb s.ckdb s.insertExc st s.documents s.batch_id
      B (hsave s (List.mem_cons_self s rest)) (hbase s (List.mem_cons_self s rest))]
    ring

/-- C2 (amended) — in a session in which checkpoint persistence never fails,
every successful `process_batch` call returns `persisted_count` equal to the
number of documents submitted, and the running cumulative total equals the
session's prior cumulative value `B` — storage's latest checkpoint total at
session start when the manager has a db and storage has one, zero otherwise
(in particular for a fresh session over empty storage) — plus the sum of
`persisted_count` over the successful calls.  (When checkpoint persistence
can fail mid-session the sum property is false — see the counterexample —
because the cumulative total also counts calls whose checkpoint was appended
in memory but never durably stored.) -/
theorem session_totals (wdb : Bool) (B : Int) (steps : List Step)
    (hsave : ∀ s ∈ steps, s.ckdb.saveExc = none)
    (hbase : ∀ s ∈ steps, baseOf s.ckdb = B) :
    (∀ pr ∈ steps.zip (runWriter wdb true steps initW).2, ∀ res : BatchResult,
        pr.2 = .ok res → res.success = true →
        res.persisted_count = pr.1.documents.length) ∧
    lastTotalB B (runWriter wdb true steps initW).1.cm.checkpoints =
      B + successSum (runWriter wdb true steps initW).2 := by
  refine ⟨runWriter_results_success_count wdb true steps initW, ?_⟩
  have h := runWriter_lastTotalB wdb B steps initW hsave hbase
  have h0 : lastTotalB B initW.cm.checkpoints = B := rfl
  rw [h0] at h
  exact h

/-- Witness for C2's amended theorem: a two-call session resuming over
storage whose latest checkpoint already records a cumulative total of 100
(so the prior cumulative value is nonzero). -/
theorem session_totals_witness :
    (∀ pr ∈ ([⟨[⟨some "a", some "x"⟩], "batch_005",
          ⟨true, some ⟨some "batch_004", 100, "committed"⟩, none, 0⟩, none⟩,
        ⟨[⟨some "b", some "y"⟩, ⟨some "c", some "z"⟩], "batch_006",
          ⟨true, some ⟨some "batch_004", 100, "committed"⟩, none, 0⟩, none⟩] :
        List Step).zip
        (runWriter false true
          [⟨[⟨some "a", some "x"⟩], "batch_005",
            ⟨true, some ⟨some "batch_004", 100, "committed"⟩, none, 0⟩, none⟩,
           ⟨[⟨some "b", some "y"⟩, ⟨some "c", some "z"⟩], "batch_006",
            ⟨true, some ⟨some "batch_004", 100, "committed"⟩, none, 0⟩, none⟩]
          initW).2, ∀ res : BatchResult,
        pr.2 = .ok res → res.success = true →
        res.persisted_count = pr.1.documents.length) ∧
    lastTotalB 100 (runWriter false true
        [⟨[⟨some "a", some "x"⟩], "batch_005",
          ⟨true, some ⟨some "batch_004", 100, "committed"⟩, none, 0⟩, none⟩,
         ⟨[⟨some "b", some "y"⟩, ⟨some "c", some "z"⟩], "batch_006",
          ⟨true, some ⟨some "batch_004", 100, "committed"⟩, none, 0⟩, none⟩]
        initW).1.cm.checkpoints =
      100 + successSum (runWriter false true
        [⟨[⟨some "a", some "x"⟩], "batch_005",
          ⟨true, some ⟨some "batch_004", 100, "committed"⟩, none, 0⟩, none⟩,
         ⟨[⟨some "b", some "y"⟩, ⟨some "c", some "z"⟩], "batch_006",
          ⟨true, some ⟨some "batch_004", 100, "committed"⟩, none, 0⟩, none⟩]
        initW).2 :=
  session_totals false 100
    [⟨[⟨some "a", some "x"⟩], "batch_005",
      ⟨true, some ⟨some "batch_004", 100, "committed"⟩, none, 0⟩, none⟩,
     ⟨[⟨some "b", some "y"⟩, ⟨some "c", some "z"⟩], "batch_006",
      ⟨true, some ⟨some "batch_004", 100, "committed"⟩, none, 0⟩, none⟩]
    (by decide) (by decide)

/-- C2 counterexample to the claim as stated: in a two-call session where the
first call's `save_checkpoint` raises (so the first call returns
`success=false`), the second (successful) call's checkpoint records
`total_persisted = 2`, while the sum of `persisted_count` over all successful
calls of the session is `1`. -/
theorem session_totals_counterexample :
    (runWriter false true
        [⟨[⟨some "a", some "x"⟩], "batch_001",
            ⟨true, none, some (.otherError "disk full"), 0⟩, none⟩,
         ⟨[⟨some "b", some "y"⟩], "batch_002", ⟨true, none, none, 0⟩, none⟩]
        initW).2 =
      [.ok ⟨false, 0, "batch_001", false, some "disk full"⟩,
       .ok ⟨true, 1, "batch_002", true, none⟩] ∧
    lastTotal (runWriter false true
        [⟨[⟨some "a", some "x"⟩], "batch_001",
            ⟨true, none, some (.otherError "disk full"), 0⟩, none⟩,
         ⟨[⟨some "b", some "y"⟩], "batch_002", ⟨true, none, none, 0⟩, none⟩]
        initW).1.cm.checkpoints = 2 ∧
    successSum (runWriter false true
        [⟨[⟨some "a", some "x"⟩], "batch_001",
            ⟨true, none, some (.otherError "disk full"), 0⟩, none⟩,
         ⟨[⟨some "b", some "y"⟩], "batch_002", ⟨true, none, none, 0⟩, none⟩]
        initW).2 = 1 ∧
    (2 : Int) ≠ 1 := by
  refine ⟨rfl, rfl, rfl, by decide⟩

/-! ### CrashRecoveryHandler (recovery.py) and Database (database.py) -/

/-- Dataclass `RecoveryResult`; `discarded` models the source field
`partial_batch_discarded`. -/
structure RecoveryResult where
  success : Bool
  recovered_batches : Nat
  resume_from : Option String
  data_loss : Option Int
  discarded : Bool
  error : Option String
  can_resume : Bool
deriving Repr, DecidableEq

/-- Batch-count derivation in `recover` (recovery.py 94-101): the numeric
suffix of a truthy `last_batch_id` of the form `<part>_<digits>`, else 0. -/
def batchCountOf (lbid : Option String) : Nat :=
  match lbid with
  | none => 0
  | some s =>
    if s = "" then 0
    else
      let parts := splitOnChar '_' s.data
      if parts.length = 2 ∧ isDigits (parts.getD 1 []) = true then
        digitsToNat (parts.getD 1 [])
      else 0

/-- The normalization applied by `recover`'s outermost exception handler
(recovery.py 119-124). -/
def normalizeFailure (e : PyExc) : RecoveryResult :=
  ⟨false, 0, none, none, false, some e.message, false⟩

/-- Behaviour of the collaborators during one `recover()` call, for the
abstract (mockable) storage and checkpoint manager: outcome of
`check_connection` (`some m` = raises with message `m`), outcome of
`get_recovery_point`, the two `hasattr` probes, and the outcomes of the
uncommitted-batch check (`has_partial_batch`) and discard
(`discard_partial_batch`). -/
structure RecEnv where
  dbPresent : Bool
  checkConnExc : Option String
  grp : Except PyExc RecoveryPoint
  hasAttrCheck : Bool
  uncommitted : Except PyExc Bool
  hasAttrDiscard : Bool
  discardExc : Option PyExc
deriving Repr

/-- Body of `CrashRecoveryHandler.recover` (recovery.py 61-117) up to, but
not including, the outermost `except Exception` handler: `.error e` is an
exception that reaches that handler. -/
def recoverBody (env : RecEnv) : Except PyExc RecoveryResult :=
  match (if env.dbPresent then env.checkConnExc else none) with
  | some m =>
    .ok ⟨false, 0, none, none, false, some ("Database unavailable: " ++ m), false⟩
  | none =>
    match env.grp with
    | .error (.corruptCheckpointError m) =>
      .ok ⟨false, 0, none, none, false, some ("corrupt checkpoint: " ++ m), false⟩
    | .error e => .error e
    | .ok rp =>
      if ! rp.can_resume then
        .ok ⟨true, 0, none, some 0, false, none, false⟩
      else
        let bc := batchCountOf rp.last_batch_id
        match (if env.dbPresent && env.hasAttrCheck then
            some env.uncommitted else none) with
        | some (.error e) => .error e
        | some (.ok true) =>
          if env.hasAttrDiscard then
            match env.discardExc with
            | some e => .error e
            | none =>
              .ok ⟨true, bc, resumeFrom rp.last_batch_id, some 0, true, none, true⟩
          else
            .ok ⟨true, bc, resumeFrom rp.last_batch_id, some 0, true, none, true⟩
        | some (.ok false) =>
          .ok ⟨true, bc, resumeFrom rp.last_batch_id, some 0, false, none, true⟩
        | none =>
          .ok ⟨true, bc, resumeFrom rp.last_batch_id, some 0, false, none, true⟩

/-- Method `CrashRecoveryHandler.recover` with the outermost handler
applied: every internal failure is caught and normalized. -/
def recover_abs (env : RecEnv) : RecoveryResult :=
  match recoverBody env with
  | .ok r => r
  | .error e => normalizeFailure e

/-- C5 (amended) — `recover()` always returns a structured result: a raising
liveness probe yields `success=false` with error `"Database unavailable: "`
followed by the probe exception's message and unknown `data_loss`, and any
exception reaching the outermost handler is normalized into `success=false`
with the failure's message and unknown `data_loss`.  (The claim's literal
error prefix "storage unavailable: " does not match the code.) -/
theorem recover_abs_spec (env : RecEnv) :
    (∀ m, env.dbPresent = true → env.checkConnExc = some m →
      recover_abs env =
        ⟨false, 0, none, none, false,
          some ("Database unavailable: " ++ m), false⟩) ∧
    (∀ e, recoverBody env = .error e → recover_abs env = normalizeFailure e) := by
  constructor
  · intro m hdb hconn
    simp [recover_abs, recoverBody, hdb, hconn]
  · intro e h
    simp [recover_abs, h]

/-- Witness for C5's amended theorem: a raising probe and an unhandled
checkpoint-manager failure. -/
theorem recover_abs_spec_witness :
    recover_abs ⟨true, some "connection refused", .ok ⟨none, 0, false⟩,
        true, .ok false, true, none⟩ =
      ⟨false, 0, none, none, false,
        some ("Database unavailable: " ++ "connection refused"), false⟩ ∧
    recover_abs ⟨false, none, .error (.otherError "boom"), true, .ok false,
        true, none⟩ =
      normalizeFailure (.otherError "boom") :=
  ⟨(recover_abs_spec ⟨true, some "connection refused", .ok ⟨none, 0, false⟩,
      true, .ok false, true, none⟩).1 "connection refused" rfl rfl,
   (recover_abs_spec ⟨false, none, .error (.otherError "boom"), true, .ok false,
      true, none⟩).2 (.otherError "boom") rfl⟩

/-- C5 counterexample to the claimed error prefix: the code's message starts
with "Database unavailable: ", not "storage unavailable: ". -/
theorem recover_error_prefix_counterexample :
    (recover_abs ⟨true, some "connection refused", .ok ⟨none, 0, false⟩,
        true, .ok false, true, none⟩).error =
      some "Database unavailable: connection refused" ∧
    "storage unavailable: ".data.isPrefixOf
      "Database unavailable: connection refused".data = false := by
  exact ⟨rfl, by decide⟩

/-! ### Concrete Database model (database.py), for recovery idempotence -/

/-- A row of the `documents` table (only `batch_id` carries logic for the
claims). -/
structure DocRow where
  id : String
  content : String
  batch_id : String
deriving Repr, DecidableEq

/-- State of the SQLite database: the `documents` table and the
`checkpoints` table in insertion order. -/
structure DbState where
  documents : List DocRow
  checkpoints : List CpDict
deriving Repr, DecidableEq

/-- Method `Database.get_latest_checkpoint`: the row with the highest
autoincrement id, i.e. the last inserted. -/
def get_latest_checkpoint (s : DbState) : Option CpDict :=
  s.checkpoints.getLast?

/-- Parse `<part>_<digits>` into its numeric suffix (database.py's
`split('_')` / `isdigit` / `int` pattern). -/
def parseNumOf (base : List Char) : Option Nat :=
  let parts := splitOnChar '_' base
  if parts.length = 2 ∧ isDigits (parts.getD 1 []) = true then
    some (digitsToNat (parts.getD 1 []))
  else none

/-- The checkpointed batch number: numeric suffix of the latest checkpoint's
`last_batch_id`, defaulting to 0 for a non-conforming id. -/
def lastNumOf (lbid : String) : Nat :=
  (parseNumOf lbid.data).getD 0

/-- A document batch id's numeric suffix after stripping a `"_partial"`
marker (`batch_id.split('_partial')[0]`). -/
def docBaseNum (b : String) : Option Nat :=
  parseNumOf (takeBeforePat "_partial".data b.data)

/-- Method `Database.has_partial_batch` (database.py 173-216).  With no
checkpoint, any document is uncommitted; otherwise a document whose stripped
batch id has the numeric suffix `n > lastNum` is uncommitted (ids of unknown
format are skipped by this check).  A NULL `last_batch_id` raises
(`AttributeError` on `.split`), modelled as an exception. -/
def hasUncommittedBatch (s : DbState) : Except PyExc Bool :=
  match get_latest_checkpoint s with
  | none => .ok (! s.documents.isEmpty)
  | some row =>
    match row.last_batch_id with
    | none => .error (.otherError "AttributeError: NoneType object has no attribute split")
    | some lbid =>
      .ok (s.documents.any (fun d =>
        match docBaseNum d.batch_id with
        | some n => decide (n > lastNumOf lbid)
        | none => false))

/-- Method `Database.discard_partial_batch` (database.py 218-260).  With no
checkpoint, all documents are deleted; otherwise documents whose stripped
batch id has numeric suffix `> lastNum`, or whose id has unknown format and
differs from the checkpointed id, are deleted. -/
def discardUncommittedBatch (s : DbState) : Except PyExc DbState :=
  match get_latest_checkpoint s with
  | none => .ok { s with documents := [] }
  | some row =>
    match row.last_batch_id with
    | none => .error (.otherError "AttributeError: NoneType object has no attribute split")
    | some lbid =>
      .ok { s with documents := s.documents.filter (fun d =>
        match docBaseNum d.batch_id with
        | some n => decide (n ≤ lastNumOf lbid)
        | none => d.batch_id == lbid) }

/-- Method `CrashRecoveryHandler.recover` over the concrete `Database`
(whose `check_connection` catches storage errors and returns a boolean, so
the liveness probe never raises) and a checkpoint manager sharing that
db.  Returns the result together with the possibly-modified storage
state. -/
def recover_db (cm : CMState) (s : DbState) : RecoveryResult × DbState :=
  match get_recovery_point true (get_latest_checkpoint s) cm with
  | .error (.corruptCheckpointError m) =>
    (⟨false, 0, none, none, false, some ("corrupt checkpoint: " ++ m), false⟩, s)
  | .error e => (normalizeFailure e, s)
  | .ok rp =>
    if ! rp.can_resume then
      (⟨true, 0, none, some 0, false, none, false⟩, s)
    else
      let bc := batchCountOf rp.last_batch_id
      match hasUncommittedBatch s with
      | .error e => (normalizeFailure e, s)
      | .ok true =>
        match discardUncommittedBatch s with
        | .error e => (normalizeFailure e, s)
        | .ok s2 =>
          (⟨true, bc, resumeFrom rp.last_batch_id, some 0, true, none, true⟩, s2)
      | .ok false =>
        (⟨true, bc, resumeFrom rp.last_batch_id, some 0, false, none, true⟩, s)

theorem discard_preserves_checkpoints {s s2 : DbState}
    (h : discardUncommittedBatch s = .ok s2) : s2.checkpoints = s.checkpoints := by
  unfold discardUncommittedBatch at h
  cases hl : get_latest_checkpoint s with
  | none =>
    simp only [hl] at h
    rw [← Except.ok.inj h]
  | some row =>
    simp only [hl] at h
    cases hb : row.last_batch_id with
    | none => simp only [hb] at h; cases h
    | some lbid =>
      simp only [hb] at h
      rw [← Except.ok.inj h]

theorem hasUncommitted_empty (cks : List CpDict) (hl : cks.getLast? = none) :
    hasUncommittedBatch ⟨[], cks⟩ = .ok false := by
  unfold hasUncommittedBatch get_latest_checkpoint
  dsimp only
  rw [hl]
  rfl

theorem hasUncommitted_of_filtered (docs : List DocRow) (cks : List CpDict)
    (row : CpDict) (lbid : String) (hl : cks.getLast? = some row)
    (hb : row.last_batch_id = some lbid) :
    hasUncommittedBatch ⟨docs.filter (fun d =>
        match docBaseNum d.batch_id with
        | some n => decide (n ≤ lastNumOf lbid)
        | none => d.batch_id == lbid), cks⟩ = .ok false := by
  unfold hasUncommittedBatch get_latest_checkpoint
  dsimp only
  rw [hl]
  simp only [hb]
  simp only [Except.ok.injEq]
  rw [List.any_eq_false]
  intro d hd
  rw [List.mem_filter] at hd
  obtain ⟨_, hkeep⟩ := hd
  cases hn : docBaseNum d.batch_id with
  | none => simp
  | some n =>
    simp only [hn] at hkeep ⊢
    simp only [decide_eq_true_eq] at hkeep ⊢
    omega

theorem discard_clears {s s2 : DbState}
    (h : discardUncommittedBatch s = .ok s2) :
    hasUncommittedBatch s2 = .ok false := by
  unfold discardUncommittedBatch at h
  cases hl : get_latest_checkpoint s with
  | none =>
    simp only [hl] at h
    rw [← Except.ok.inj h]
    exact hasUncommitted_empty s.checkpoints hl
  | some row =>
    simp only [hl] at h
    cases hb : row.last_batch_id with
    | none => simp only [hb] at h; cases h
    | some lbid =>
      simp only [hb] at h
      rw [← Except.ok.inj h]
      exact hasUncommitted_of_filtered s.documents s.checkpoints row lbid hl hb

/-- C8 — `recover()` is idempotent when no writes occur in between: the
second of two consecutive calls returns the same `resume_from` and
`recovered_batches` as the first, and reports no partial batch discarded
(the first call's discard removed every uncommitted batch). -/
theorem recover_idempotent (cm : CMState) (s : DbState) :
    (recover_db cm (recover_db cm s).2).1.resume_from =
      (recover_db cm s).1.resume_from ∧
    (recover_db cm (recover_db cm s).2).1.recovered_batches =
      (recover_db cm s).1.recovered_batches ∧
    (recover_db cm (recover_db cm s).2).1.discarded = false := by
  cases hg : get_recovery_point true (get_latest_checkpoint s) cm with
  | error e =>
    cases e <;> simp [recover_db, hg, normalizeFailure]
  | ok rp =>
    by_cases hcr : rp.can_resume = true
    · cases hu : hasUncommittedBatch s with
      | error e =>
        simp [recover_db, hg, hcr, hu, normalizeFailure]
      | ok b =>
        cases b with
        | false =>
          simp [recover_db, hg, hcr, hu]
        | true =>
          cases hd : discardUncommittedBatch s with
          | error e =>
            simp [recover_db, hg, hcr, hu, hd, normalizeFailure]
          | ok s2 =>
            have hstate : (recover_db cm s).2 = s2 := by
              simp [recover_db, hg, hcr, hu, hd]
            have hck : s2.checkpoints = s.checkpoints :=
              discard_preserves_checkpoints hd
            have hlatest2 : get_latest_checkpoint s2 = get_latest_checkpoint s := by
              unfold get_latest_checkpoint
              rw [hck]
            have hg2 : get_recovery_point true (get_latest_checkpoint s2) cm = .ok rp := by
              rw [hlatest2, hg]
            have hu2 : hasUncommittedBatch s2 = .ok false := discard_clears hd
            rw [hstate]
            simp [recover_db, hg, hg2, hcr, hu, hu2, hd]
    · have hcr2 : (! rp.can_resume) = true := by
        simp [Bool.not_eq_true'] at hcr ⊢
        exact hcr
      simp [recover_db, hg, hcr2]

end DocsRag
